import Mathlib

set_option linter.unusedVariables false

/-!
Shallow embedding of the image-differ-flask repository (src/differ.py and
src/app.py) together with proofs about its specification claims.

Images are modelled as a width, a height and a total pixel function; pixel
channel values are natural numbers (decoded raster images carry values in
[0,255]; where a claim needs that bound it appears as a `Valid` hypothesis).
The PIL library calls made by `differ.py` are embedded from their documented
semantics:

* `ImageChops.subtract(a, b)` (scale 1, offset 0) clamps each per-channel
  difference at 0, which is exactly truncated subtraction on ℕ;
* `ImageChops.difference(a, b)` is the per-channel absolute difference;
* `Image.histogram()` on a 3-band image returns the 768 per-band counts,
  band after band (red counts first);
* `Image.eval(im, f)` applies `f` to every channel of every pixel;
* `Image.convert('1')` first collapses RGB to luminance with the ITU-R 601-2
  transform `L = (299 R + 587 G + 114 B) / 1000` (truncating division) and
  then binarizes: values larger than 127 become white, the default
  Floyd-Steinberg dithering diffusing the quantization error (7/16 to the
  right neighbour, 3/16, 5/16, 1/16 to the row below);
* `Image.composite(im1, im2, mask)` selects `im1` where the bilevel mask is
  white and `im2` where it is black;
* `Image.alpha_composite(dst, src)` is Porter-Duff "over" with straight
  alpha; a source pixel with alpha 0 leaves the destination pixel unchanged
  and a source pixel with alpha 255 replaces it.

Python's two-iterable `map(f, xs, ys)` (used by `rmsdiff_1997`) stops at the
shorter iterable, which is `List.zipWith`.
-/

/-- One 3-channel pixel (the mode the mask builder works in). -/
structure RGB where
  r : ℕ
  g : ℕ
  b : ℕ
deriving DecidableEq

/-- One 4-channel pixel (the mode the overlay compositor works in). -/
structure RGBA where
  r : ℕ
  g : ℕ
  b : ℕ
  a : ℕ
deriving DecidableEq

/-- A 3-channel image: dimensions plus a total pixel map `pix x y`. -/
structure RGBImage where
  width : ℕ
  height : ℕ
  pix : ℕ → ℕ → RGB

/-- A 4-channel image. -/
structure RGBAImage where
  width : ℕ
  height : ℕ
  pix : ℕ → ℕ → RGBA

/-- All in-range channel values of a decoded image lie in [0,255]. -/
def RGBImage.Valid (im : RGBImage) : Prop :=
  ∀ x < im.width, ∀ y < im.height,
    (im.pix x y).r ≤ 255 ∧ (im.pix x y).g ≤ 255 ∧ (im.pix x y).b ≤ 255

instance (im : RGBImage) : Decidable im.Valid := by
  unfold RGBImage.Valid
  infer_instance

/-- Raster coordinates of a `w × h` image as `(y, x)` pairs, rows first —
the order both PIL's pixel access and the `Differ.color` loop use. -/
def coords (w h : ℕ) : List (ℕ × ℕ) := (List.range h) ×ˢ (List.range w)

/-- Absolute difference of two channel values (`ImageChops.difference`
works per channel); on ℕ it is the sum of the two clamped differences. -/
def absDiff (a b : ℕ) : ℕ := (a - b) + (b - a)

/-- `ImageChops.difference(im1, im2)`: per-channel absolute difference. -/
def ImageChops.difference (im1 im2 : RGBImage) : RGBImage :=
  { width := im1.width
    height := im1.height
    pix := fun x y =>
      { r := absDiff (im1.pix x y).r (im2.pix x y).r
        g := absDiff (im1.pix x y).g (im2.pix x y).g
        b := absDiff (im1.pix x y).b (im2.pix x y).b } }

/-- `ImageChops.subtract(im1, im2)` with the default scale 1 and offset 0:
per-channel subtraction clamped at zero, i.e. truncated ℕ subtraction. -/
def ImageChops.subtract (im1 im2 : RGBImage) : RGBImage :=
  { width := im1.width
    height := im1.height
    pix := fun x y =>
      { r := (im1.pix x y).r - (im2.pix x y).r
        g := (im1.pix x y).g - (im2.pix x y).g
        b := (im1.pix x y).b - (im2.pix x y).b } }

/-- How many in-range pixels of `im` have channel `chan` equal to `i` —
one entry of PIL's per-band histogram. -/
def countChan (im : RGBImage) (chan : RGB → ℕ) (i : ℕ) : ℕ :=
  (coords im.width im.height).countP (fun c => chan (im.pix c.2 c.1) == i)

/-- `im.histogram()` for a 3-band image: 768 counts, the red band's 256
counts first, then green, then blue. -/
def histogramList (im : RGBImage) : List ℕ :=
  ((List.range 256).map (countChan im (fun p => p.r)))
    ++ ((List.range 256).map (countChan im (fun p => p.g)))
    ++ ((List.range 256).map (countChan im (fun p => p.b)))

/-- The sum computed by `Differ.rmsdiff_1997`:
`reduce(add, map(lambda h, i: h*(i**2), h, range(256)))`. Python's
two-iterable `map` stops at the shorter iterable, exactly `List.zipWith`. -/
def Differ.rmsdiffSum (im1 im2 : RGBImage) : ℕ :=
  (List.zipWith (fun hc i => hc * i ^ 2)
    (histogramList (ImageChops.difference im1 im2)) (List.range 256)).sum

/-- The quantity under the square root in `Differ.rmsdiff_1997`: the
histogram-weighted sum divided by `im1.size[0] * im1.size[1]`.  The score
returned by the Python code is `math.sqrt` of this value. -/
def Differ.scoreSq (im1 im2 : RGBImage) : ℚ :=
  (Differ.rmsdiffSum im1 im2 : ℚ) / ((im1.width : ℚ) * (im1.height : ℚ))

/-- The score formula exactly as the spec words it: `h[i]` counts
occurrences of absolute difference value `i` across all pixels and ALL
channels; the score is the square root of `Σ h[i]·i²` over the pixel
count.  Kept separate from `Differ.rmsdiffSum` so the two can be compared. -/
def specHistSum (im1 im2 : RGBImage) : ℕ :=
  ((List.range 256).map (fun i =>
    (countChan (ImageChops.difference im1 im2) (fun p => p.r) i
      + countChan (ImageChops.difference im1 im2) (fun p => p.g) i
      + countChan (ImageChops.difference im1 im2) (fun p => p.b) i) * i ^ 2)).sum

/-- The spec's radicand: `Σ h[i]·i² / pixelCount` with `h` over all
channels. -/
def specScoreSq (im1 im2 : RGBImage) : ℚ :=
  (specHistSum im1 im2 : ℚ) / ((im1.width : ℚ) * (im1.height : ℚ))

/-- Decidable rendering of `Real.sqrt q ≤ t` for a nonnegative rational
radicand `q`, used to embed the Python comparison
`math.sqrt(q) <= threshold` (floats are read as exact reals).  The
equivalence with `Real.sqrt` is proved in `sqrtLE_iff` below. -/
def sqrtLE (q t : ℚ) : Bool := decide (0 ≤ t) && decide (q ≤ t ^ 2)

/-- The `nonzero` helper inside `Differ.mask`: channel values below the
change threshold 10 go to 0, all others to 255. -/
def nonzero (a : ℕ) : ℕ := if a < 10 then 0 else 255

/-- `Image.eval(im, f)`: apply `f` to every channel of every pixel. -/
def evalRGB (f : ℕ → ℕ) (im : RGBImage) : RGBImage :=
  { width := im.width
    height := im.height
    pix := fun x y => { r := f (im.pix x y).r, g := f (im.pix x y).g, b := f (im.pix x y).b } }

/-- ITU-R 601-2 luma transform used by PIL when converting RGB to a single
band: `L = (299 R + 587 G + 114 B) / 1000`, truncating. -/
def lum (p : RGB) : ℕ := (p.r * 299 + p.g * 587 + p.b * 114) / 1000

/-- The image's luminance values, row by row, ready for dithering. -/
def toGrayRows (im : RGBImage) : List (List ℕ) :=
  (List.range im.height).map (fun y => (List.range im.width).map (fun x => lum (im.pix x y)))

/-- Pointwise sum of two error buffers, keeping the longer tail. -/
def addErr : List ℤ → List ℤ → List ℤ
  | [], ys => ys
  | xs, [] => xs
  | x :: xs, y :: ys => (x + y) :: addErr xs ys

/-- One row of Floyd-Steinberg error diffusion (the default dithering of
`Image.convert('1')`).  `errs` are the incoming errors for this and the
following pixels of the row, `carry` is the error diffused from the left
neighbour.  Values larger than 127 (after adding the diffused error)
become white.  Returns the bilevel output row and the error buffer for the
row below, starting at column index `-1` (one to the left of the current
pixel). -/
def fsRowAux : List ℕ → List ℤ → ℤ → List Bool × List ℤ
  | [], _, _ => ([], [])
  | v :: vs, errs, carry =>
    let l : ℤ := (v : ℤ) + carry + errs.headD 0
    let out : Bool := decide (127 < l)
    let err : ℤ := l - (if out then 255 else 0)
    let rest := fsRowAux vs errs.tail (err * 7 / 16)
    (out :: rest.1, err * 3 / 16 :: addErr [err * 5 / 16, err * 1 / 16] rest.2)

/-- Floyd-Steinberg dithering of a whole luminance image; each row's
leftover down-errors (minus the off-image column `-1` entry) feed the next
row. -/
def fsImage : List (List ℕ) → List ℤ → List (List Bool)
  | [], _ => []
  | row :: rows, errs =>
    let res := fsRowAux row errs 0
    res.1 :: fsImage rows res.2.tail

/-- `im.convert('1')`: luminance followed by dithered binarization. -/
def convert1 (im : RGBImage) : List (List Bool) :=
  fsImage (toGrayRows im) []

/-- The bilevel mask built inside `Differ.mask`:
`Image.eval(ImageChops.subtract(image_a, image_b), nonzero).convert('1')`.
Both inputs are already 3-channel here (`convert('RGB')` is the identity
on our RGB model). -/
def Differ.maskBits (image_a image_b : RGBImage) : List (List Bool) :=
  convert1 (evalRGB nonzero (ImageChops.subtract image_a image_b))

/-- One bit of the bilevel mask; `true` is a "changed" (white) pixel. -/
def Differ.maskBitAt (image_a image_b : RGBImage) (x y : ℕ) : Bool :=
  ((Differ.maskBits image_a image_b).getD y []).getD x false

/-- `Image.composite(im1, im2, mask)`: `im1` where the mask is white,
`im2` where it is black. -/
def Image.composite (im1 im2 : RGBImage) (mask : ℕ → ℕ → Bool) : RGBImage :=
  { width := im1.width
    height := im1.height
    pix := fun x y => if mask x y then im1.pix x y else im2.pix x y }

/-- The image returned by `Differ.mask`:
`Image.composite(image_a, Image.eval(image_b, lambda x: 0), mask)` — the
"selected" image carrying `image_a`'s content at changed pixels and black
elsewhere. -/
def Differ.mask (image_a image_b : RGBImage) : RGBImage :=
  Image.composite image_a (evalRGB (fun _ => 0) image_b) (Differ.maskBitAt image_a image_b)

/-- `im.convert('RGBA')` on a 3-channel image: alpha becomes 255. -/
def toRGBA (im : RGBImage) : RGBAImage :=
  { width := im.width
    height := im.height
    pix := fun x y => { r := (im.pix x y).r, g := (im.pix x y).g, b := (im.pix x y).b, a := 255 } }

/-- The recoloring applied to one pixel of the overlay inside the
`Differ.color` loop (`differ.py` lines 153-159): pixels other than
fully-transparent white are rewritten — exactly-opaque-black ones to
fully-transparent white, all others to the provided `rgba`. -/
def recolorPixCase (rgba p : RGBA) : RGBA :=
  if p ≠ { r := 255, g := 255, b := 255, a := 0 } then
    (if p = { r := 0, g := 0, b := 0, a := 255 } then { r := 255, g := 255, b := 255, a := 0 }
     else rgba)
  else p

/-- One iteration of the `Differ.color` pixel loop: write the recolored
value of pixel `(c.2, c.1)` back in place (`pixdata[x, y] = ...`). -/
def recolorStep (rgba : RGBA) (pd : ℕ → ℕ → RGBA) (c : ℕ × ℕ) : ℕ → ℕ → RGBA :=
  fun u v => if u = c.2 ∧ v = c.1 then recolorPixCase rgba (pd c.2 c.1) else pd u v

/-- The whole `for y in range(height): for x in range(width): ...` loop of
`Differ.color`, as a fold of the in-place update over the raster
coordinates of the mask image. -/
def recolorLoop (rgba : RGBA) (w h : ℕ) (pd : ℕ → ℕ → RGBA) : ℕ → ℕ → RGBA :=
  (coords w h).foldl (recolorStep rgba) pd

/-- `Image.alpha_composite(dst, src)` on one pixel: Porter-Duff "over"
with straight alpha, integer channels rounded to nearest.  A source pixel
with alpha 0 leaves the destination pixel untouched (Pillow's fast path)
and a source pixel with alpha 255 replaces it exactly. -/
def overPix (dst src : RGBA) : RGBA :=
  if src.a = 0 then dst
  else
    { r := (src.r * src.a * 255 + dst.r * dst.a * (255 - src.a)
        + (src.a * 255 + dst.a * (255 - src.a)) / 2) / (src.a * 255 + dst.a * (255 - src.a))
      g := (src.g * src.a * 255 + dst.g * dst.a * (255 - src.a)
        + (src.a * 255 + dst.a * (255 - src.a)) / 2) / (src.a * 255 + dst.a * (255 - src.a))
      b := (src.b * src.a * 255 + dst.b * dst.a * (255 - src.a)
        + (src.a * 255 + dst.a * (255 - src.a)) / 2) / (src.a * 255 + dst.a * (255 - src.a))
      a := (src.a * 255 + dst.a * (255 - src.a) + 127) / 255 }

/-- `Differ.color(background, mask, rgba, opacity)`: copy the background
(already 4-channel here; `convert('RGBA')` of an RGBA image is the
identity), recolor the mask image in place with the loop above, and
alpha-composite the recolored overlay on top of the background copy.
Note the faithful detail that the `opacity` argument appears in the
Python signature but is never read by the function body. -/
def Differ.color (background maskImg : RGBAImage) (rgba : RGBA) (opacity : ℚ) : RGBAImage :=
  { width := background.width
    height := background.height
    pix := fun x y =>
      overPix (background.pix x y)
        (recolorLoop rgba maskImg.width maskImg.height maskImg.pix x y) }

/-- The spec's description of how a changed pixel should be rendered:
the highlight channel blended over the background channel at the
configured opacity, rounded to the nearest integer. -/
def specOpacityBlend (opacity : ℚ) (hi bgv : ℕ) : ℤ :=
  round (opacity * hi + (1 - opacity) * bgv)

/-- Failure outcomes of one `Differ.diff` invocation.  PIL raises
`ValueError("images do not match")` from `ImageChops.difference` when the
two images differ in size; the spec's taxonomy calls this condition
`DimensionMismatchError`.  An uncaught boto3 upload exception is the
spec's `PublishError`. -/
inductive DiffError where
  | dimensionMismatch
  | publishError (name : String)
deriving DecidableEq

/-- Observable steps of one `Differ.diff` invocation, in execution order. -/
inductive DiffEvent where
  | download (url : String)
  | maskComputed (side : String) (im : RGBImage)
  | overlayComputed (side : String) (im : RGBAImage)
  | uploadAttempt (name : String) (im : RGBAImage)

/-- Does an event belong to the "removed" half of the pipeline? -/
def DiffEvent.removeSide : DiffEvent → Bool
  | .download _ => false
  | .maskComputed s _ => s == "remove"
  | .overlayComputed s _ => s == "remove"
  | .uploadAttempt n _ => n == "remove.png"

/-- Is the event a mask computation, an overlay composition or an upload
attempt (as opposed to a download)? -/
def DiffEvent.isHeavy : DiffEvent → Bool
  | .download _ => false
  | .maskComputed _ _ => true
  | .overlayComputed _ _ => true
  | .uploadAttempt _ _ => true

/-- `Differ.diff(image_a_url, image_b_url, dst, bucket, ...)`.  The image
fetcher is passed in as `fetch` (download then `Image.open`); whether an
S3 upload raises is modelled by the `uploadFails` oracle, keyed by the
local file name the code uploads (`add.png` / `remove.png`).  The returned
`Bool` mirrors the Python return value (`False` = score at or below the
threshold, "no difference").  The event list records, in order, the
observable work the invocation performed before returning or raising.
Control flow follows `differ.py` lines 235-269: download both images,
score them (raising on a size mismatch, where PIL's `difference` raises),
return `False` if the score is at or below the threshold, otherwise build
and upload the "added" overlay (green, mask of after minus before) and
then the "removed" overlay (red, mask of before minus after); an uncaught
upload exception aborts the invocation at that point. -/
def Differ.diff (fetch : String → RGBImage) (image_a_url image_b_url : String)
    (bucket : String) (threshold opacity : ℚ) (uploadFails : String → Bool) :
    Except DiffError Bool × List DiffEvent :=
  let image_a := fetch image_a_url
  let image_b := fetch image_b_url
  let tr0 : List DiffEvent := [.download image_a_url, .download image_b_url]
  if image_a.width ≠ image_b.width ∨ image_a.height ≠ image_b.height then
    (.error .dimensionMismatch, tr0)
  else if sqrtLE (Differ.scoreSq image_a image_b) threshold then
    (.ok false, tr0)
  else
    let add_mask := Differ.mask image_b image_a
    let add_img := Differ.color (toRGBA image_b) (toRGBA add_mask)
      { r := 0, g := 255, b := 0, a := 255 } opacity
    let tr1 := tr0 ++ [.maskComputed "add" add_mask, .overlayComputed "add" add_img,
      .uploadAttempt "add.png" add_img]
    if uploadFails "add.png" then (.error (.publishError "add.png"), tr1)
    else
      let remove_mask := Differ.mask image_a image_b
      let remove_img := Differ.color (toRGBA image_a) (toRGBA remove_mask)
        { r := 255, g := 0, b := 0, a := 255 } opacity
      let tr2 := tr1 ++ [.maskComputed "remove" remove_mask,
        .overlayComputed "remove" remove_img, .uploadAttempt "remove.png" remove_img]
      if uploadFails "remove.png" then (.error (.publishError "remove.png"), tr2)
      else (.ok true, tr2)

/-- The functions `app.py` binds at module level, with their arities. -/
inductive PyFunc where
  | helperDiff
  | routeRoot
  | routeDiff
  | buildResponse
  | notFound
deriving DecidableEq

/-- Number of positional parameters each function accepts. -/
def PyFunc.arity : PyFunc → ℕ
  | .helperDiff => 1
  | .routeRoot => 0
  | .routeDiff => 0
  | .buildResponse => 2
  | .notFound => 1

/-- The module-level `def` statements of `app.py` in execution order:
`build_response` (line 17), the helper `diff(payload)` (line 22),
`not_found` (line 34), the route `differ()` (line 39) and the route
`diff()` (line 44).  A later `def` rebinds the module-global name. -/
def appBindings : List (String × PyFunc) :=
  [("build_response", .buildResponse), ("diff", .helperDiff), ("not_found", .notFound),
   ("differ", .routeRoot), ("diff", .routeDiff)]

/-- Python global-name resolution: the most recent binding wins. -/
def resolveGlobal (name : String) : Option PyFunc :=
  appBindings.foldl (fun acc bnd => if bnd.1 = name then some bnd.2 else acc) none

/-- What the WSGI layer observes for one request: a response with a status
code and body, or an uncaught Python exception. -/
inductive HttpOutcome where
  | response (status : ℕ) (body : String)
  | exception (kind : String)
deriving DecidableEq

/-- Calls out of `app.py` into the differ core. -/
inductive AppEvent where
  | differDiffCall
deriving DecidableEq

/-- The `/v1/diff` view function of `app.py` (lines 43-49) on a request
whose parsed JSON body is `requestJson` (`none` when there is no JSON
body; Python treats an empty JSON object as falsy, hence the empty-list
case also aborts with 400).  The body calls the module-global `diff` with
one argument; calling a zero-parameter function with one argument raises
`TypeError`.  Only if that call succeeded would the helper run (invoking
`Differ.diff`) and the success response be built. -/
def handleV1Diff (requestJson : Option (List (String × String))) :
    HttpOutcome × List AppEvent :=
  match requestJson with
  | none => (.response 400 "Bad Request", [])
  | some d =>
    if d = [] then (.response 400 "Bad Request", [])
    else
      match resolveGlobal "diff" with
      | none => (.exception "NameError", [])
      | some f =>
        if f.arity ≠ 1 then (.exception "TypeError", [])
        else (.response 200 "success", [.differDiffCall])

/-! ### Concrete test images -/

/-- A 1×1 all-black image. -/
def imBlack : RGBImage := { width := 1, height := 1, pix := fun _ _ => { r := 0, g := 0, b := 0 } }

/-- A 1×1 image whose only difference from black is a full blue channel. -/
def imBlueOnly : RGBImage :=
  { width := 1, height := 1, pix := fun _ _ => { r := 0, g := 0, b := 255 } }

/-- A 1×1 image whose only difference from black is a full green channel. -/
def imGreenOnly : RGBImage :=
  { width := 1, height := 1, pix := fun _ _ => { r := 0, g := 255, b := 0 } }

/-- A 1×1 image whose only difference from black is a full red channel. -/
def imRedOnly : RGBImage :=
  { width := 1, height := 1, pix := fun _ _ => { r := 255, g := 0, b := 0 } }

/-- A 2×2 all-black image (for dimension-mismatch scenarios). -/
def imTwo : RGBImage := { width := 2, height := 2, pix := fun _ _ => { r := 0, g := 0, b := 0 } }

/-- A 1×1 partly-transparent gray RGBA background. -/
def bgSample : RGBAImage :=
  { width := 1, height := 1, pix := fun _ _ => { r := 7, g := 8, b := 9, a := 200 } }

/-- A 1×1 opaque gray background for the opacity scenario. -/
def bgC3 : RGBAImage :=
  { width := 1, height := 1, pix := fun _ _ => { r := 100, g := 100, b := 100, a := 255 } }

/-- A 1×1 mask image whose pixel carries (non-black, non-white) changed
content. -/
def maskC3 : RGBAImage :=
  { width := 1, height := 1, pix := fun _ _ => { r := 50, g := 50, b := 50, a := 255 } }

/-- A fetcher serving a black before image and a red after image. -/
def fetchC6 : String → RGBImage := fun u => if u = "a" then imBlack else imRedOnly

/-- A fetcher serving images of mismatched dimensions. -/
def fetchC5 : String → RGBImage := fun u => if u = "a" then imBlack else imTwo

/-! ### The mask builder (claim C1) -/

/-- The top-left pixel receives no diffused error, so its mask bit is the
plain luminance threshold of the recolored difference pixel. -/
lemma maskBitAt_origin (a b : RGBImage) (hw : 0 < a.width) (hh : 0 < a.height) :
    Differ.maskBitAt a b 0 0 =
      decide (127 < ((lum ((evalRGB nonzero (ImageChops.subtract a b)).pix 0 0) : ℕ) : ℤ)) := by
  obtain ⟨w1, hw1⟩ : ∃ k, a.width = k + 1 := ⟨a.width - 1, by omega⟩
  obtain ⟨h1, hh1⟩ : ∃ k, a.height = k + 1 := ⟨a.height - 1, by omega⟩
  unfold Differ.maskBitAt Differ.maskBits convert1 toGrayRows
  simp only [evalRGB, ImageChops.subtract, hw1, hh1]
  rw [List.range_succ_eq_map, List.range_succ_eq_map]
  simp [fsImage, fsRowAux]

/-- Case analysis over the three thresholded channels: after the `nonzero`
remap every channel is 0 or 255, and of the eight possible luminances only
the four with a white green channel exceed 127. -/
lemma lum_nonzero_gt_iff (dr dg db : ℕ) :
    (127 < ((lum { r := nonzero dr, g := nonzero dg, b := nonzero db } : ℕ) : ℤ)) ↔ 10 ≤ dg := by
  by_cases h1 : dr < 10 <;> by_cases h2 : dg < 10 <;> by_cases h3 : db < 10 <;>
    norm_num [lum, nonzero, h1, h2, h3] <;> omega

/-- C1 fails as stated: a pixel whose zero-clamped difference has its blue
channel at 255 (far above the change threshold 10) is NOT marked changed,
because `convert('1')` first collapses the thresholded channels to
luminance (a blue-only white pixel has luminance 29 ≤ 127). -/
theorem C1_counterexample :
    ¬ (Differ.maskBitAt imBlueOnly imBlack 0 0 = true ↔
        (10 ≤ ((ImageChops.subtract imBlueOnly imBlack).pix 0 0).r ∨
         10 ≤ ((ImageChops.subtract imBlueOnly imBlack).pix 0 0).g ∨
         10 ≤ ((ImageChops.subtract imBlueOnly imBlack).pix 0 0).b)) := by
  decide

/-- C1 (amended): the mask is the Floyd-Steinberg-dithered binarization of
the LUMINANCE of the per-channel thresholded zero-clamped subtraction, not
a per-channel test; at a pixel receiving no diffused error — in particular
the top-left pixel — the pixel is marked changed if and only if the green
channel of the zero-clamped subtraction `A − B` is ≥ 10.  Red- or
blue-only differences never mark such a pixel. -/
theorem C1_mask_green_channel (a b : RGBImage) (hw : 0 < a.width) (hh : 0 < a.height) :
    (Differ.maskBitAt a b 0 0 = true ↔ 10 ≤ (a.pix 0 0).g - (b.pix 0 0).g) := by
  rw [maskBitAt_origin a b hw hh]
  simp only [evalRGB, ImageChops.subtract, decide_eq_true_eq]
  exact lum_nonzero_gt_iff _ _ _

/-- Witness for `C1_mask_green_channel` at a concrete input: a pure green
difference is marked changed at the top-left pixel. -/
theorem C1_witness :
    (0 < imGreenOnly.width) ∧ (0 < imGreenOnly.height) ∧
      (Differ.maskBitAt imGreenOnly imBlack 0 0 = true ↔
        10 ≤ (imGreenOnly.pix 0 0).g - (imBlack.pix 0 0).g) :=
  ⟨by decide, by decide, C1_mask_green_channel imGreenOnly imBlack (by decide) (by decide)⟩

/-! ### The scorer (claims C2 and C9) -/

/-- Zipping against a shorter list only consumes the front of the longer
one (this is what silently discards the green and blue histogram bands in
`rmsdiff_1997`). -/
lemma zipWith_append_left {α β γ : Type} (f : α → β → γ) :
    ∀ (xs ys : List α) (zs : List β), zs.length ≤ xs.length →
      List.zipWith f (xs ++ ys) zs = List.zipWith f xs zs := by
  intro xs
  induction xs with
  | nil =>
    intro ys zs h
    have hz : zs = [] := by
      cases zs with
      | nil => rfl
      | cons z zs => simp at h
    simp [hz]
  | cons x xs ih =>
    intro ys zs h
    cases zs with
    | nil => simp
    | cons z zs =>
      simp only [List.cons_append, List.zipWith_cons_cons]
      rw [ih ys zs (by simpa using h)]

/-- Zipping a mapped copy of a list against the list itself is a map. -/
lemma zipWith_map_left_self {α β γ : Type} (k : β → α → γ) (g : α → β) :
    ∀ l : List α, List.zipWith k (l.map g) l = l.map (fun i => k (g i) i) := by
  intro l
  induction l with
  | nil => rfl
  | cons a l ih => simp [ih]

/-- What `rmsdiff_1997` actually sums: only the red band of the histogram
survives the truncating two-iterable `map`. -/
lemma rmsdiffSum_eq_red (im1 im2 : RGBImage) :
    Differ.rmsdiffSum im1 im2 =
      ((List.range 256).map (fun i =>
        countChan (ImageChops.difference im1 im2) (fun p => p.r) i * i ^ 2)).sum := by
  unfold Differ.rmsdiffSum histogramList
  rw [zipWith_append_left _ _ _ _ (by simp), zipWith_append_left _ _ _ _ (by simp),
    zipWith_map_left_self]

/-- The histogram of the difference of an image with itself is
concentrated at 0, so the weighted sum vanishes. -/
lemma rmsdiffSum_self (X : RGBImage) : Differ.rmsdiffSum X X = 0 := by
  rw [rmsdiffSum_eq_red]
  apply List.sum_eq_zero
  intro z hz
  simp only [List.mem_map, List.mem_range] at hz
  obtain ⟨i, hi, rfl⟩ := hz
  rcases Nat.eq_zero_or_pos i with h0 | hpos
  · subst h0; simp
  · have hc : countChan (ImageChops.difference X X) (fun p => p.r) i = 0 := by
      unfold countChan
      apply List.countP_eq_zero.mpr
      intro c hc
      simp only [ImageChops.difference, absDiff, beq_iff_eq]
      omega
    simp [hc]

/-- C9: the score of an image against itself is 0. -/
theorem C9_score_self_zero (X : RGBImage) (hw : 0 < X.width) (hh : 0 < X.height) :
    Real.sqrt ((Differ.scoreSq X X : ℚ) : ℝ) = 0 := by
  have h : Differ.scoreSq X X = 0 := by
    unfold Differ.scoreSq
    rw [rmsdiffSum_self]
    simp
  rw [h]
  simp

/-- Witness for `C9_score_self_zero` on a concrete image. -/
theorem C9_witness :
    (0 < imBlack.width) ∧ (0 < imBlack.height) ∧
      Real.sqrt ((Differ.scoreSq imBlack imBlack : ℚ) : ℝ) = 0 :=
  ⟨by decide, by decide, C9_score_self_zero imBlack (by decide) (by decide)⟩

/-- Summing a function mapped over `List.range` is a `Finset.range` sum. -/
lemma sum_map_range_eq (F : ℕ → ℕ) (n : ℕ) :
    ((List.range n).map F).sum = ∑ i ∈ Finset.range n, F i := by
  induction n with
  | zero => simp
  | succ k ih =>
    rw [List.range_succ, List.map_append, List.sum_append, Finset.sum_range_succ, ih]
    simp

/-- A histogram-weighted sum is the plain sum over the underlying list:
`Σ_i #{x ∈ L | g x = i} · f i = Σ_{x ∈ L} f (g x)` when all `g`-values are
below the histogram size. -/
lemma countP_weighted_sum {α : Type} (g : α → ℕ) (f : ℕ → ℕ) (n : ℕ) :
    ∀ L : List α, (∀ x ∈ L, g x < n) →
      (∑ i ∈ Finset.range n, (L.countP (fun x => g x == i)) * f i)
        = (L.map (fun x => f (g x))).sum := by
  intro L
  induction L with
  | nil => intro _; simp
  | cons a L ih =>
    intro hb
    have ha : g a ∈ Finset.range n := Finset.mem_range.mpr (hb a (by simp))
    have hL : ∀ x ∈ L, g x < n := fun x hx => hb x (List.mem_cons_of_mem a hx)
    simp only [List.countP_cons, List.map_cons, List.sum_cons]
    have hδ : (∑ i ∈ Finset.range n, (if (g a == i) = true then 1 else 0) * f i) = f (g a) := by
      have hi : ∀ i, (if (g a == i) = true then 1 else 0) * f i = if g a = i then f i else 0 := by
        intro i
        by_cases h : g a = i <;> simp [h]
      rw [Finset.sum_congr rfl (fun i _ => hi i), Finset.sum_ite_eq]
      simp [ha]
    calc (∑ i ∈ Finset.range n,
            (L.countP (fun x => g x == i) + if (g a == i) = true then 1 else 0) * f i)
        = (∑ i ∈ Finset.range n, L.countP (fun x => g x == i) * f i)
            + ∑ i ∈ Finset.range n, (if (g a == i) = true then 1 else 0) * f i := by
          rw [← Finset.sum_add_distrib]
          exact Finset.sum_congr rfl (fun i _ => by ring)
      _ = f (g a) + (L.map (fun x => f (g x))).sum := by rw [hδ, ih hL]; ring

/-- The sum `rmsdiff_1997` computes equals the direct sum of squared
red-channel differences over all pixels. -/
lemma rmsdiffSum_eq_pixel_sum (im1 im2 : RGBImage) (h1 : im1.Valid) (h2 : im2.Valid)
    (hw : im2.width = im1.width) (hh : im2.height = im1.height) :
    Differ.rmsdiffSum im1 im2 =
      ((coords im1.width im1.height).map (fun c =>
        (absDiff (im1.pix c.2 c.1).r (im2.pix c.2 c.1).r) ^ 2)).sum := by
  rw [rmsdiffSum_eq_red, sum_map_range_eq]
  have hb : ∀ c ∈ coords im1.width im1.height,
      absDiff (im1.pix c.2 c.1).r (im2.pix c.2 c.1).r < 256 := by
    intro c hc
    obtain ⟨y, x⟩ := c
    rw [coords, List.mem_product] at hc
    obtain ⟨hy, hx⟩ := hc
    rw [List.mem_range] at hy hx
    have v1 := h1 x hx y hy
    have v2 := h2 x (by omega) y (by omega)
    simp only [absDiff]
    omega
  have hmain := countP_weighted_sum
    (fun c => absDiff (im1.pix c.2 c.1).r (im2.pix c.2 c.1).r) (fun i => i ^ 2) 256
    (coords im1.width im1.height) hb
  rw [← hmain]
  exact Finset.sum_congr rfl (fun i _ => by simp [countChan, ImageChops.difference])

set_option maxRecDepth 40000 in
/-- C2 fails as stated: with a 1×1 black image against a 1×1 pure-green
image the all-channel histogram formula of the spec gives score 255, but
the code's two-iterable `map` truncates the 768-entry histogram to its
first 256 entries — the red band — so the code scores these two visibly
different images 0. -/
theorem C2_counterexample :
    Real.sqrt ((Differ.scoreSq imBlack imGreenOnly : ℚ) : ℝ) ≠
      Real.sqrt ((specScoreSq imBlack imGreenOnly : ℚ) : ℝ) := by
  have hcode : Differ.scoreSq imBlack imGreenOnly = 0 := by
    have h : Differ.rmsdiffSum imBlack imGreenOnly = 0 := by decide
    unfold Differ.scoreSq
    rw [h]
    simp
  have hspec : specScoreSq imBlack imGreenOnly = 65025 := by
    have h : specHistSum imBlack imGreenOnly = 65025 := by decide
    unfold specScoreSq
    rw [h]
    norm_num [imBlack]
  rw [hcode, hspec]
  rw [show ((0 : ℚ) : ℝ) = 0 by norm_num,
    show ((65025 : ℚ) : ℝ) = (255 : ℝ) ^ 2 by norm_num]
  rw [Real.sqrt_zero, Real.sqrt_sq (by norm_num)]
  norm_num

/-- C2 (amended): the score equals
`sqrt( Σ_i h[i]·i² / pixelCount )` where `h[i]` counts occurrences of
absolute difference value `i` across all pixels of the FIRST band (red)
only; equivalently, the square root of the mean over pixels of the squared
red-channel difference.  The green and blue bands of the histogram are
discarded by the truncating two-iterable `map`. -/
theorem C2_score_first_band (im1 im2 : RGBImage) (h1 : im1.Valid) (h2 : im2.Valid)
    (hw : im2.width = im1.width) (hh : im2.height = im1.height) :
    Real.sqrt ((Differ.scoreSq im1 im2 : ℚ) : ℝ) =
      Real.sqrt (((((coords im1.width im1.height).map (fun c =>
          (absDiff (im1.pix c.2 c.1).r (im2.pix c.2 c.1).r) ^ 2)).sum : ℚ)
        / ((im1.width : ℚ) * (im1.height : ℚ)) : ℚ) : ℝ) := by
  unfold Differ.scoreSq
  rw [rmsdiffSum_eq_pixel_sum im1 im2 h1 h2 hw hh]

/-- Witness for `C2_score_first_band` on concrete images. -/
theorem C2_witness :
    imBlack.Valid ∧ imBlueOnly.Valid ∧ imBlueOnly.width = imBlack.width ∧
      imBlueOnly.height = imBlack.height ∧
      Real.sqrt ((Differ.scoreSq imBlack imBlueOnly : ℚ) : ℝ) =
        Real.sqrt (((((coords imBlack.width imBlack.height).map (fun c =>
            (absDiff (imBlack.pix c.2 c.1).r (imBlueOnly.pix c.2 c.1).r) ^ 2)).sum : ℚ)
          / ((imBlack.width : ℚ) * (imBlack.height : ℚ)) : ℚ) : ℝ) :=
  ⟨by decide, by decide, rfl, rfl,
    C2_score_first_band imBlack imBlueOnly (by decide) (by decide) rfl rfl⟩

/-! ### The overlay compositor (claims C3, C7, C8) -/

/-- The in-place recolor fold touches each raster coordinate exactly once,
so its result at any coordinate depends only on that pixel's original
value: visited coordinates carry the recolored value, unvisited ones are
untouched. -/
lemma recolor_foldl_pix (rgba : RGBA) :
    ∀ (L : List (ℕ × ℕ)), L.Nodup → ∀ (pd : ℕ → ℕ → RGBA) (x y : ℕ),
      (L.foldl (recolorStep rgba) pd) x y =
        if (y, x) ∈ L then recolorPixCase rgba (pd x y) else pd x y := by
  intro L
  induction L with
  | nil =>
    intro _ pd x y
    simp
  | cons c L ih =>
    intro hnd pd x y
    rw [List.foldl_cons, ih (List.nodup_cons.mp hnd).2]
    by_cases hc : (y, x) = c
    · have hnotin : (y, x) ∉ L := by
        rw [hc]
        exact (List.nodup_cons.mp hnd).1
      have hstep : recolorStep rgba pd c x y = recolorPixCase rgba (pd x y) := by
        unfold recolorStep
        rw [← hc]
        simp
      rw [if_neg hnotin, hstep, if_pos (by rw [hc]; exact List.mem_cons_self c L)]
    · have hne : ¬ (x = c.2 ∧ y = c.1) := by
        rintro ⟨h1, h2⟩
        exact hc (by rw [h1, h2])
      have hstep : recolorStep rgba pd c x y = pd x y := by
        unfold recolorStep
        rw [if_neg hne]
      have hmem : ((y, x) ∈ c :: L) ↔ ((y, x) ∈ L) := by
        constructor
        · intro hin
          rcases List.mem_cons.mp hin with h | h
          · exact absurd h hc
          · exact h
        · intro hin
          exact List.mem_cons_of_mem c hin
      rw [hstep, if_congr hmem rfl rfl]

/-- The raster coordinate list has no duplicates. -/
lemma coords_nodup (w h : ℕ) : (coords w h).Nodup :=
  List.Nodup.product (List.nodup_range _) (List.nodup_range _)

/-- Membership in the raster coordinate list is just being in range. -/
lemma mem_coords_iff (w h x y : ℕ) : ((y, x) ∈ coords w h) ↔ (y < h ∧ x < w) := by
  unfold coords
  rw [List.mem_product, List.mem_range, List.mem_range]

/-- At an in-range coordinate the recolor loop computes the per-pixel
recoloring of the pixel's original value. -/
lemma recolorLoop_pix (rgba : RGBA) (w h : ℕ) (pd : ℕ → ℕ → RGBA) (x y : ℕ)
    (hx : x < w) (hy : y < h) :
    recolorLoop rgba w h pd x y = recolorPixCase rgba (pd x y) := by
  unfold recolorLoop
  rw [recolor_foldl_pix rgba (coords w h) (coords_nodup w h) pd x y,
    if_pos ((mem_coords_iff w h x y).mpr ⟨hy, hx⟩)]

/-- C8: the recolor step is pointwise and order-independent — at every
in-range pixel the loop's result is a function of that pixel's old value
alone: fully-transparent white is kept, exactly-opaque-black becomes
fully-transparent white, and every other value becomes the highlight
`rgba`. -/
theorem C8_recolor_pointwise (rgba : RGBA) (w h : ℕ) (pd : ℕ → ℕ → RGBA) (x y : ℕ)
    (hx : x < w) (hy : y < h) :
    recolorLoop rgba w h pd x y =
      if pd x y = { r := 255, g := 255, b := 255, a := 0 } then pd x y
      else if pd x y = { r := 0, g := 0, b := 0, a := 255 }
        then { r := 255, g := 255, b := 255, a := 0 }
      else rgba := by
  rw [recolorLoop_pix rgba w h pd x y hx hy]
  unfold recolorPixCase
  by_cases h1 : pd x y = { r := 255, g := 255, b := 255, a := 0 } <;> simp [h1]

/-- Witness for `C8_recolor_pointwise` at a concrete pixel value. -/
theorem C8_witness :
    ((0 : ℕ) < 1) ∧
      recolorLoop { r := 0, g := 255, b := 0, a := 255 } 1 1
          (fun _ _ => { r := 50, g := 50, b := 50, a := 255 }) 0 0 =
        (if ({ r := 50, g := 50, b := 50, a := 255 } : RGBA)
            = { r := 255, g := 255, b := 255, a := 0 }
          then { r := 50, g := 50, b := 50, a := 255 }
          else if ({ r := 50, g := 50, b := 50, a := 255 } : RGBA)
            = { r := 0, g := 0, b := 0, a := 255 }
          then { r := 255, g := 255, b := 255, a := 0 }
          else { r := 0, g := 255, b := 0, a := 255 }) :=
  ⟨by decide, C8_recolor_pointwise { r := 0, g := 255, b := 0, a := 255 } 1 1
    (fun _ _ => { r := 50, g := 50, b := 50, a := 255 }) 0 0 (by decide) (by decide)⟩

/-- C7: at every position the mask marks unchanged, the composited overlay
pixel is exactly the background pixel.  An unchanged position of the
selected image carries opaque black, which the recolor loop rewrites to
fully-transparent white, and alpha-compositing a zero-alpha source leaves
the destination untouched. -/
theorem C7_unchanged_pixels_background (a b : RGBImage) (bg : RGBAImage) (rgba : RGBA)
    (opacity : ℚ) (x y : ℕ) (hx : x < a.width) (hy : y < a.height)
    (hm : Differ.maskBitAt a b x y = false) :
    (Differ.color bg (toRGBA (Differ.mask a b)) rgba opacity).pix x y = bg.pix x y := by
  have hsel : (toRGBA (Differ.mask a b)).pix x y = { r := 0, g := 0, b := 0, a := 255 } := by
    simp [toRGBA, Differ.mask, Image.composite, evalRGB, hm]
  show overPix (bg.pix x y) (recolorLoop rgba (toRGBA (Differ.mask a b)).width
    (toRGBA (Differ.mask a b)).height (toRGBA (Differ.mask a b)).pix x y) = bg.pix x y
  rw [recolorLoop_pix rgba (toRGBA (Differ.mask a b)).width (toRGBA (Differ.mask a b)).height
      (toRGBA (Differ.mask a b)).pix x y hx hy, hsel,
    show recolorPixCase rgba { r := 0, g := 0, b := 0, a := 255 }
        = { r := 255, g := 255, b := 255, a := 0 } by simp [recolorPixCase]]
  simp [overPix]

/-- Witness for `C7_unchanged_pixels_background`: identical source images
give an all-unchanged mask, and the composite returns the background pixel
bit for bit. -/
theorem C7_witness :
    ((0 : ℕ) < imBlack.width) ∧ ((0 : ℕ) < imBlack.height) ∧
      Differ.maskBitAt imBlack imBlack 0 0 = false ∧
      (Differ.color bgSample (toRGBA (Differ.mask imBlack imBlack))
          { r := 0, g := 255, b := 0, a := 255 } (13/20)).pix 0 0 = bgSample.pix 0 0 :=
  ⟨by decide, by decide, by decide,
    C7_unchanged_pixels_background imBlack imBlack bgSample
      { r := 0, g := 255, b := 0, a := 255 } (13/20) 0 0 (by decide) (by decide) (by decide)⟩

/-- C3 at its failing input: the mask marks the pixel changed (its value
(50,50,50,255) is neither transparent white nor opaque black), the
highlight is opaque green and the opacity argument is 0.65 — yet the
output pixel is the pure highlight color, not the 0.65-blend the spec
prescribes (whose red channel over the gray background would be 35, not
0).  Indeed `Differ.color` never reads its `opacity` argument, as the last
conjunct records. -/
theorem C3_opacity_ignored :
    (Differ.color bgC3 maskC3 { r := 0, g := 255, b := 0, a := 255 } (13/20)).pix 0 0 =
        { r := 0, g := 255, b := 0, a := 255 } ∧
      ((((Differ.color bgC3 maskC3 { r := 0, g := 255, b := 0, a := 255 } (13/20)).pix 0 0).r : ℤ)
        ≠ specOpacityBlend (13/20) 100 100) ∧
      specOpacityBlend (13/20) 0 100 = 35 ∧
      Differ.color bgC3 maskC3 { r := 0, g := 255, b := 0, a := 255 } (13/20) =
        Differ.color bgC3 maskC3 { r := 0, g := 255, b := 0, a := 255 } 1 := by
  refine ⟨by decide, ?_, ?_, rfl⟩
  · have hr : ((Differ.color bgC3 maskC3 { r := 0, g := 255, b := 0, a := 255 } (13/20)).pix 0 0).r
        = 0 := by decide
    rw [hr]
    norm_num [specOpacityBlend, round_eq]
  · norm_num [specOpacityBlend, round_eq]

/-! ### The diff orchestrator (claims C4, C5, C6) -/

/-- The radicand the scorer divides out is nonnegative. -/
lemma scoreSq_nonneg (im1 im2 : RGBImage) : 0 ≤ Differ.scoreSq im1 im2 := by
  unfold Differ.scoreSq
  positivity

/-- The boolean branch test used in the embedding of `Differ.diff` agrees
with the real comparison `math.sqrt(q) <= t` for a nonnegative radicand. -/
lemma sqrtLE_iff (q t : ℚ) (hq : 0 ≤ q) :
    sqrtLE q t = true ↔ Real.sqrt (q : ℝ) ≤ (t : ℝ) := by
  unfold sqrtLE
  rw [Bool.and_eq_true, decide_eq_true_eq, decide_eq_true_eq]
  constructor
  · rintro ⟨h1, h2⟩
    have h1r : (0 : ℝ) ≤ (t : ℝ) := by exact_mod_cast h1
    have h2r : ((q : ℚ) : ℝ) ≤ ((t : ℝ)) ^ 2 := by exact_mod_cast h2
    calc Real.sqrt (q : ℝ) ≤ Real.sqrt ((t : ℝ) ^ 2) := Real.sqrt_le_sqrt h2r
      _ = (t : ℝ) := Real.sqrt_sq h1r
  · intro h
    have h1r : (0 : ℝ) ≤ (t : ℝ) := le_trans (Real.sqrt_nonneg _) h
    have hqr : (0 : ℝ) ≤ ((q : ℚ) : ℝ) := by exact_mod_cast hq
    have h2r : ((q : ℚ) : ℝ) ≤ (t : ℝ) ^ 2 := by
      calc ((q : ℚ) : ℝ) = Real.sqrt ((q : ℚ) : ℝ) ^ 2 := (Real.sq_sqrt hqr).symm
        _ ≤ (t : ℝ) ^ 2 := pow_le_pow_left₀ (Real.sqrt_nonneg _) h 2
    exact ⟨by exact_mod_cast h1r, by exact_mod_cast h2r⟩

/-- C4: when the score is at or below the threshold, `Differ.diff` returns
the "no difference" result (`False`) having performed only the two
downloads — no mask computation, no overlay composition, no upload
attempt. -/
theorem C4_no_difference_short_circuit (fetch : String → RGBImage)
    (image_a_url image_b_url bucket : String) (threshold opacity : ℚ)
    (uploadFails : String → Bool)
    (hw : (fetch image_a_url).width = (fetch image_b_url).width)
    (hh : (fetch image_a_url).height = (fetch image_b_url).height)
    (hscore : Real.sqrt ((Differ.scoreSq (fetch image_a_url) (fetch image_b_url) : ℚ) : ℝ)
      ≤ (threshold : ℝ)) :
    Differ.diff fetch image_a_url image_b_url bucket threshold opacity uploadFails =
      (.ok false, [.download image_a_url, .download image_b_url]) := by
  simp only [Differ.diff]
  rw [if_neg (by simp [hw, hh]),
    if_pos ((sqrtLE_iff _ _ (scoreSq_nonneg _ _)).mpr hscore)]

/-- Witness for `C4_no_difference_short_circuit`: identical images score 0
and the invocation stops after the downloads. -/
theorem C4_witness :
    ((fun _ => imBlack) "a" : RGBImage).width = ((fun _ => imBlack) "b" : RGBImage).width ∧
      Real.sqrt ((Differ.scoreSq imBlack imBlack : ℚ) : ℝ) ≤ ((0 : ℚ) : ℝ) ∧
      Differ.diff (fun _ => imBlack) "a" "b" "bucket" 0 (13/20) (fun _ => false) =
        (.ok false, [.download "a", .download "b"]) := by
  have hs : Differ.scoreSq imBlack imBlack = 0 := by
    unfold Differ.scoreSq
    rw [rmsdiffSum_self]
    simp
  have hsc : Real.sqrt ((Differ.scoreSq imBlack imBlack : ℚ) : ℝ) ≤ ((0 : ℚ) : ℝ) := by
    rw [hs]
    simp
  exact ⟨rfl, hsc, C4_no_difference_short_circuit (fun _ => imBlack) "a" "b" "bucket" 0 (13/20)
    (fun _ => false) rfl rfl hsc⟩

/-- C5: images that differ in width or height make `Differ.diff` fail with
the dimension-mismatch error (PIL's `ValueError` from
`ImageChops.difference`, raised while scoring) before any mask, overlay or
upload work happens — the trace holds only the two downloads, so nothing
is cropped or scaled. -/
theorem C5_dimension_mismatch (fetch : String → RGBImage)
    (image_a_url image_b_url bucket : String) (threshold opacity : ℚ)
    (uploadFails : String → Bool)
    (hmm : (fetch image_a_url).width ≠ (fetch image_b_url).width ∨
      (fetch image_a_url).height ≠ (fetch image_b_url).height) :
    Differ.diff fetch image_a_url image_b_url bucket threshold opacity uploadFails =
      (.error .dimensionMismatch, [.download image_a_url, .download image_b_url]) := by
  simp only [Differ.diff]
  rw [if_pos hmm]

/-- Witness for `C5_dimension_mismatch` with a 1×1 against a 2×2 image. -/
theorem C5_witness :
    ((fetchC5 "a").width ≠ (fetchC5 "b").width ∨
        (fetchC5 "a").height ≠ (fetchC5 "b").height) ∧
      Differ.diff fetchC5 "a" "b" "bucket" 0 (13/20) (fun _ => false) =
        (.error .dimensionMismatch, [.download "a", .download "b"]) :=
  ⟨Or.inl (by decide),
    C5_dimension_mismatch fetchC5 "a" "b" "bucket" 0 (13/20) (fun _ => false)
      (Or.inl (by decide))⟩

set_option maxRecDepth 100000 in
/-- C6 fails as stated: in a run where uploading fails (for both names),
the invocation aborts at the "added" upload — the result reports only the
add-side publish failure, and the trace contains no removed-side mask,
overlay or upload event at all. -/
theorem C6_counterexample :
    (Differ.diff fetchC6 "a" "b" "bucket" 0 (13/20) (fun _ => true)).1 =
        .error (.publishError "add.png") ∧
      ((Differ.diff fetchC6 "a" "b" "bucket" 0 (13/20) (fun _ => true)).2.countP
        DiffEvent.removeSide) = 0 := by
  have hs : Differ.scoreSq (fetchC6 "a") (fetchC6 "b") = 65025 := by
    have h : Differ.rmsdiffSum (fetchC6 "a") (fetchC6 "b") = 65025 := by decide
    unfold Differ.scoreSq
    rw [h]
    norm_num [fetchC6, imBlack]
  have hsq : ¬ (sqrtLE (Differ.scoreSq (fetchC6 "a") (fetchC6 "b")) 0 = true) := by
    rw [hs]
    decide
  have heq : Differ.diff fetchC6 "a" "b" "bucket" 0 (13/20) (fun _ => true) =
      (.error (.publishError "add.png"),
        [.download "a", .download "b",
         .maskComputed "add" (Differ.mask (fetchC6 "b") (fetchC6 "a")),
         .overlayComputed "add" (Differ.color (toRGBA (fetchC6 "b"))
           (toRGBA (Differ.mask (fetchC6 "b") (fetchC6 "a")))
           { r := 0, g := 255, b := 0, a := 255 } (13/20)),
         .uploadAttempt "add.png" (Differ.color (toRGBA (fetchC6 "b"))
           (toRGBA (Differ.mask (fetchC6 "b") (fetchC6 "a")))
           { r := 0, g := 255, b := 0, a := 255 } (13/20))]) := by
    simp only [Differ.diff]
    rw [if_neg (by decide), if_neg hsq, if_pos trivial]
    rfl
  rw [heq]
  exact ⟨rfl, rfl⟩

/-- C6 (amended): a failure publishing the "added" overlay aborts the
invocation at that point — the "removed" mask and overlay are never
computed, its publish is never attempted, and only the first failure is
reported to the caller. -/
theorem C6_publish_failure_aborts (fetch : String → RGBImage)
    (image_a_url image_b_url bucket : String) (threshold opacity : ℚ)
    (uploadFails : String → Bool)
    (hw : (fetch image_a_url).width = (fetch image_b_url).width)
    (hh : (fetch image_a_url).height = (fetch image_b_url).height)
    (hscore : ¬ Real.sqrt ((Differ.scoreSq (fetch image_a_url) (fetch image_b_url) : ℚ) : ℝ)
      ≤ (threshold : ℝ))
    (hfail : uploadFails "add.png" = true) :
    Differ.diff fetch image_a_url image_b_url bucket threshold opacity uploadFails =
      (.error (.publishError "add.png"),
        [.download image_a_url, .download image_b_url,
         .maskComputed "add" (Differ.mask (fetch image_b_url) (fetch image_a_url)),
         .overlayComputed "add" (Differ.color (toRGBA (fetch image_b_url))
           (toRGBA (Differ.mask (fetch image_b_url) (fetch image_a_url)))
           { r := 0, g := 255, b := 0, a := 255 } opacity),
         .uploadAttempt "add.png" (Differ.color (toRGBA (fetch image_b_url))
           (toRGBA (Differ.mask (fetch image_b_url) (fetch image_a_url)))
           { r := 0, g := 255, b := 0, a := 255 } opacity)]) := by
  have hsq : ¬ (sqrtLE (Differ.scoreSq (fetch image_a_url) (fetch image_b_url)) threshold
      = true) := by
    intro hcon
    exact hscore ((sqrtLE_iff _ _ (scoreSq_nonneg _ _)).mp hcon)
  simp only [Differ.diff]
  rw [if_neg (by simp [hw, hh]), if_neg hsq, if_pos hfail]
  rfl

set_option maxRecDepth 100000 in
/-- Witness for `C6_publish_failure_aborts` on concrete images whose red
channels differ, so the score branch is passed. -/
theorem C6_witness :
    (fetchC6 "a").width = (fetchC6 "b").width ∧
      (¬ Real.sqrt ((Differ.scoreSq (fetchC6 "a") (fetchC6 "b") : ℚ) : ℝ) ≤ ((0 : ℚ) : ℝ)) ∧
      Differ.diff fetchC6 "a" "b" "bucket" 0 (13/20) (fun _ => true) =
        (.error (.publishError "add.png"),
          [.download "a", .download "b",
           .maskComputed "add" (Differ.mask (fetchC6 "b") (fetchC6 "a")),
           .overlayComputed "add" (Differ.color (toRGBA (fetchC6 "b"))
             (toRGBA (Differ.mask (fetchC6 "b") (fetchC6 "a")))
             { r := 0, g := 255, b := 0, a := 255 } (13/20)),
           .uploadAttempt "add.png" (Differ.color (toRGBA (fetchC6 "b"))
             (toRGBA (Differ.mask (fetchC6 "b") (fetchC6 "a")))
             { r := 0, g := 255, b := 0, a := 255 } (13/20))]) := by
  have hs : Differ.scoreSq (fetchC6 "a") (fetchC6 "b") = 65025 := by
    have h : Differ.rmsdiffSum (fetchC6 "a") (fetchC6 "b") = 65025 := by decide
    unfold Differ.scoreSq
    rw [h]
    norm_num [fetchC6, imBlack]
  have hsc : ¬ Real.sqrt ((Differ.scoreSq (fetchC6 "a") (fetchC6 "b") : ℚ) : ℝ)
      ≤ ((0 : ℚ) : ℝ) := by
    rw [hs, show ((65025 : ℚ) : ℝ) = (255 : ℝ) ^ 2 by norm_num,
      Real.sqrt_sq (by norm_num)]
    norm_num
  exact ⟨rfl, hsc,
    C6_publish_failure_aborts fetchC6 "a" "b" "bucket" 0 (13/20) (fun _ => true)
      rfl rfl hsc rfl⟩

/-! ### The Flask app (claim C10) -/

/-- C10: any request to `/v1/diff` carrying a (truthy) JSON body ends in a
`TypeError` — the module-global name `diff` resolves to the zero-parameter
route function itself, which the body then calls with one argument — so
the handler never reaches `Differ.diff` (no core call event is emitted)
and never returns the success response. -/
theorem C10_route_shadowing_type_error (d : List (String × String)) (hd : d ≠ []) :
    handleV1Diff (some d) = (.exception "TypeError", []) := by
  show (if d = [] then ((.response 400 "Bad Request", []) : HttpOutcome × List AppEvent)
    else
      match resolveGlobal "diff" with
      | none => (.exception "NameError", [])
      | some f =>
        if f.arity ≠ 1 then (.exception "TypeError", [])
        else (.response 200 "success", [.differDiffCall])) = (.exception "TypeError", [])
  rw [if_neg hd]
  rfl

/-- Witness for `C10_route_shadowing_type_error` on a concrete body. -/
theorem C10_witness :
    ([("before_image_url", "u")] : List (String × String)) ≠ [] ∧
      handleV1Diff (some [("before_image_url", "u")]) = (.exception "TypeError", []) :=
  ⟨by decide, C10_route_shadowing_type_error [("before_image_url", "u")] (by decide)⟩
